import Mathlib

/-!
Shallow embedding of LeviathanMapper (src/LeviathanMapper.go), a concurrent
subdomain-enumeration tool.  The embedding covers:

* the retrying fetcher `fetchWithRetries` (lines 71-83),
* the four source adapters `fetchFromCrtSh`, `fetchFromSecurityTrails`,
  `fetchFromShodan`, `fetchFromVirusTotal` (lines 86-194),
* the aggregator `addSubdomain` / `containsWildcard` (lines 197-216),
* the HTTP-client configuration `configureHTTPClient` (lines 41-68) and the
  overall `main` control flow (lines 227-257).

Network I/O is modelled by oracles: a function `Nat → Except String Resp`
gives, for each attempt index, the outcome `httpClient.Do(req)` would produce
(`.error e` = transport error with message `e`; `.ok r` = a response).  A
response body is `Option JVal`: `none` stands for bytes that are not valid
JSON, `some j` for the parsed JSON document `j`.  Go's `json.Decode` into a
concrete Go type then either succeeds or reports an error; that shape check is
modelled by `decodeBodyArrObj` / `decodeBodyObj`.

The shared map `uniqueSubs : map[string]struct{}` is an unordered key set and
is modelled by `Finset String`.  The mutex serializes all `addSubdomain`
calls, so a concurrent run is a fold of `addSubdomain` over some serialization
(a list) of the recorded strings; permutation-invariance of the resulting set
is proved below.  The `fmt.Println("Subdomain found:", ...)` executed at each
fresh insertion is modelled by the `foundLog` field, in execution order.
-/

namespace LeviathanMapper

/-- Decoded JSON values, as Go's `encoding/json` produces them for
`interface{}` targets (null, bool, number, string, array, object). -/
inductive JVal where
  | null
  | bool (b : Bool)
  | num (n : Int)
  | str (s : String)
  | arr (elems : List JVal)
  | obj (fields : List (String × JVal))

/-- Field lookup in a decoded JSON object.  Go's decoder builds a
`map[string]interface{}`, where a duplicated key keeps the last value. -/
def lookupField (fields : List (String × JVal)) (key : String) : Option JVal :=
  fields.foldl (fun acc p => if p.1 = key then some p.2 else acc) none

/-- `interface{}` viewed as a JSON object (`map[string]interface{}`);
fails on any other shape, as Go's type assertion / decode does. -/
def asObj : JVal → Option (List (String × JVal))
  | .obj fields => some fields
  | _ => none

/-- `json.Decode(&results)` for `results []map[string]interface{}`
(fetchFromCrtSh, line 98): the document must be an array whose every
element is an object, otherwise `Decode` reports an error. -/
def decodeArrObj : JVal → Option (List (List (String × JVal)))
  | .arr elems => elems.mapM asObj
  | _ => none

/-- A response body (`none` = not valid JSON) decoded as
`[]map[string]interface{}`; `none` = `Decode` returned an error. -/
def decodeBodyArrObj (body : Option JVal) : Option (List (List (String × JVal))) :=
  body.bind decodeArrObj

/-- A response body decoded as `map[string]interface{}` (the SecurityTrails,
Shodan and VirusTotal adapters, lines 127, 155, 184). -/
def decodeBodyObj (body : Option JVal) : Option (List (String × JVal)) :=
  body.bind asObj

/-- An HTTP response: status code plus (the JSON parse of) its body. -/
structure Resp where
  statusCode : Nat
  body : Option JVal

/-- `retryLimit = 3` (line 18). -/
def retryLimit : Nat := 3

/-- The loop body of `fetchWithRetries` (lines 75-81).  `doReq i` is the
outcome of `httpClient.Do(req)` on attempt `i`; `lastErr` is the current
value of the local variable `err`; `fuel` is the number of loop iterations
left.  Besides the Go function's `(resp, err)` result the model also returns
the total number of attempts made (the value of `i` at loop exit), so that
the retry bound can be stated.  Note that on exhaustion the Go code executes
`return nil, err`: the response is dropped and only the last `err` (which is
`nil` whenever the last attempt got a non-200 response without a transport
error) is returned. -/
def fetchGo (doReq : Nat → Except String Resp) :
    Nat → Nat → Option String → (Option Resp × Option String) × Nat
  | i, 0, lastErr => ((none, lastErr), i)
  | i, fuel + 1, _ =>
    match doReq i with
    | .ok r => if r.statusCode = 200 then ((some r, none), i + 1)
               else fetchGo doReq (i + 1) fuel none
    | .error e => fetchGo doReq (i + 1) fuel (some e)

/-- `fetchWithRetries` (lines 71-83): run the loop from attempt 0 with
`retryLimit` iterations, `resp`/`err` initially nil. -/
def fetchWithRetries (doReq : Nat → Except String Resp) :
    (Option Resp × Option String) × Nat :=
  fetchGo doReq 0 retryLimit none

/-- Whether an attempt outcome counts as a failure triggering the next
attempt: a transport error, or a response whose status is not 200
(the negation of the test on line 77). -/
def attemptFails : Except String Resp → Bool
  | .error _ => true
  | .ok r => !(r.statusCode == 200)

/-- `containsWildcard` (lines 214-216): `len(subdomain) > 0 && subdomain[0] == '*'`.
The byte test `subdomain[0] == '*'` on a UTF-8 string holds exactly when the
first character is `'*'` (a lead byte of a multi-byte character never equals
the ASCII byte 0x2A), so it is modelled on the first character. -/
def containsWildcard (subdomain : String) : Bool :=
  match subdomain.data with
  | [] => false
  | c :: _ => c = '*'

/-- The aggregator state: the key set of `uniqueSubs` (line 34) together with
the strings printed by `fmt.Println("Subdomain found:", subdomain)` (line 209),
in execution order. -/
structure AggState where
  set : Finset String
  foundLog : List String

/-- Process start: `uniqueSubs = make(map[string]struct{})`, nothing printed. -/
def emptyAgg : AggState := ⟨∅, []⟩

/-- `addSubdomain` (lines 197-211), the body guarded by the mutex: drop
wildcard findings, then insert only when the key is absent, printing the
newly found subdomain. -/
def addSubdomain (st : AggState) (subdomain : String) : AggState :=
  if containsWildcard subdomain then st
  else if subdomain ∈ st.set then st
  else ⟨insert subdomain st.set, st.foundLog ++ [subdomain]⟩

/-- A run's recordings: the mutex serializes all `addSubdomain` calls into
some total order, given here as a list; the state is the left fold. -/
def recordAll (st : AggState) (findings : List String) : AggState :=
  findings.foldl addSubdomain st

/-- The aggregator state after a run that records `findings` (in that
serialization order), starting from the empty map. -/
def runAgg (findings : List String) : AggState :=
  recordAll emptyAgg findings

/-- A Go runtime panic.  The only panic reachable in this code is the nil
pointer dereference in `defer resp.Body.Close()` when `fetchWithRetries`
returns a nil response together with a nil error. -/
inductive GoPanic where
  | nilPointerDeref
deriving DecidableEq

/-- What one adapter goroutine does: how many request sequences it started
(`calls` counts calls to `fetchWithRetries`, i.e. 0 when the adapter is
skipped for a missing key) and the strings it passes to `addSubdomain`, in
order.  Returning `.ok` models the goroutine reaching its deferred
`wg.Done()`; `.error` models a panic that crashes the process. -/
structure AdapterOut where
  calls : Nat
  findings : List String
deriving DecidableEq

/-- `fmt.Sprintf`'s `%s` verb applied to one decoded JSON element, as used in
`fmt.Sprintf("%s.%s", sub, domain)` (lines 131, 159).  For a string it is the
string itself; for any other dynamic type Go's fmt prints a `%!s(...)`
bad-verb form (its exact text for non-strings is irrelevant to every claim,
which only concern string labels). -/
def goSprintfS : JVal → String
  | .str s => s
  | .null => "%!s(<nil>)"
  | .bool b => "%!s(bool=" ++ (if b then "true" else "false") ++ ")"
  | .num n => "%!s(float64=" ++ toString n ++ ")"
  | .arr _ => "%!s([])"
  | .obj _ => "%!s(map[])"

/-- The parse loop of `fetchFromCrtSh` (lines 100-104): from each decoded
record take the `"name_value"` field when it is a string. -/
def crtShFindings (entries : List (List (String × JVal))) : List String :=
  entries.filterMap fun entry =>
    match lookupField entry "name_value" with
    | some (.str s) => some s
    | _ => none

/-- The parse step shared by SecurityTrails and Shodan (lines 129, 157):
`result["subdomains"].([]interface{})`. -/
def subdomainsArray (fields : List (String × JVal)) : Option (List JVal) :=
  match lookupField fields "subdomains" with
  | some (.arr elems) => some elems
  | _ => none

/-- The parse loop of `fetchFromVirusTotal` (lines 186-191):
`result["data"].([]interface{})`, keeping string entries as-is
(no domain concatenation). -/
def vtFindings (fields : List (String × JVal)) : List String :=
  match lookupField fields "data" with
  | some (.arr elems) =>
      elems.filterMap fun j =>
        match j with
        | .str s => some s
        | _ => none
  | _ => []

/-- The tail shared by all four adapters once a request has been issued:
check `err`, (implicitly) dereference `resp` for `defer resp.Body.Close()`,
decode, extract.  `extract` is each adapter's body-to-findings parse
(everything after a successful decode). -/
def adapterTail (doReq : Nat → Except String Resp)
    (extract : Resp → List String) : Except GoPanic AdapterOut :=
  match fetchWithRetries doReq with
  | ((resp?, err?), n) =>
    match err? with
    | some _ => .ok ⟨n, []⟩
    | none =>
      match resp? with
      | none => .error .nilPointerDeref
      | some r => .ok ⟨n, extract r⟩

/-- `fetchFromCrtSh` (lines 86-106).  The domain only shapes the request URL,
not the parsing of the response. -/
def runCrtSh (_domain : String) (doReq : Nat → Except String Resp) :
    Except GoPanic AdapterOut :=
  adapterTail doReq fun r =>
    match decodeBodyArrObj r.body with
    | some entries => crtShFindings entries
    | none => []

/-- `fetchFromSecurityTrails` (lines 109-135): skipped entirely when the API
key is empty; otherwise each element of the `"subdomains"` array is recorded
as `fmt.Sprintf("%s.%s", sub, domain)`. -/
def runSecurityTrails (apiKey domain : String)
    (doReq : Nat → Except String Resp) : Except GoPanic AdapterOut :=
  if apiKey = "" then .ok ⟨0, []⟩
  else
    adapterTail doReq fun r =>
      match decodeBodyObj r.body with
      | some fields =>
          match subdomainsArray fields with
          | some elems => elems.map fun sub => goSprintfS sub ++ "." ++ domain
          | none => []
      | none => []

/-- `fetchFromShodan` (lines 138-163): same structure as SecurityTrails
(the key travels in the URL instead of a header, which the model does not
distinguish). -/
def runShodan (apiKey domain : String)
    (doReq : Nat → Except String Resp) : Except GoPanic AdapterOut :=
  if apiKey = "" then .ok ⟨0, []⟩
  else
    adapterTail doReq fun r =>
      match decodeBodyObj r.body with
      | some fields =>
          match subdomainsArray fields with
          | some elems => elems.map fun sub => goSprintfS sub ++ "." ++ domain
          | none => []
      | none => []

/-- `fetchFromVirusTotal` (lines 166-194): skipped when the key is empty;
otherwise string entries of `result["data"]` are recorded unchanged. -/
def runVirusTotal (apiKey _domain : String)
    (doReq : Nat → Except String Resp) : Except GoPanic AdapterOut :=
  if apiKey = "" then .ok ⟨0, []⟩
  else
    adapterTail doReq fun r =>
      match decodeBodyObj r.body with
      | some fields => vtFindings fields
      | none => []

/-- The per-run oracles: the outcome of `url.Parse(proxyURL)`, of the TCP
probe `net.DialTimeout("tcp", proxy.Host, defaultTimeout)`, and each
adapter's network behaviour (attempt index ↦ outcome of `httpClient.Do`). -/
structure Oracles where
  proxyParses : Bool
  proxyReachable : Bool
  crtSh : Nat → Except String Resp
  securityTrails : Nat → Except String Resp
  shodan : Nat → Except String Resp
  virusTotal : Nat → Except String Resp

/-- Outcome of `configureHTTPClient` (lines 41-68): `exitFailure` is
`os.Exit(1)` (bad proxy format, or unreachable proxy); otherwise the client
is built, with or without a proxy transport. -/
inductive ConfigOutcome where
  | exitFailure
  | ok (proxyUsed : Bool)
deriving DecidableEq

/-- `configureHTTPClient` (lines 41-68).  With an empty `proxyURL` neither
the parse nor the probe happens; with a non-empty one, a parse failure or a
probe failure each call `os.Exit(1)`. -/
def configureHTTPClient (proxyURL : String) (parses reachable : Bool) :
    ConfigOutcome :=
  if proxyURL = "" then .ok false
  else if parses = false then .exitFailure
  else if reachable = false then .exitFailure
  else .ok true

/-- The fan-out/fan-in of `main` (lines 247-253): the four goroutines run
concurrently and `wg.Wait()` blocks until each has signalled; if any
goroutine panics the process dies.  A completing run yields the multiset of
recorded strings — given here in one fixed serialization; the resulting
unique-set is proved permutation-invariant, so any interleaving of the
concurrent `addSubdomain` calls gives the same set — and the total number of
fetches started. -/
def runAdapters (domain stKey shKey vtKey : String) (o : Oracles) :
    Except GoPanic (List String × Nat) :=
  match runCrtSh domain o.crtSh with
  | .error p => .error p
  | .ok a =>
    match runSecurityTrails stKey domain o.securityTrails with
    | .error p => .error p
    | .ok b =>
      match runShodan shKey domain o.shodan with
      | .error p => .error p
      | .ok c =>
        match runVirusTotal vtKey domain o.virusTotal with
        | .error p => .error p
        | .ok d =>
          .ok (a.findings ++ b.findings ++ c.findings ++ d.findings,
               a.calls + b.calls + c.calls + d.calls)

/-- The observable outcome of `main` (lines 227-257). -/
inductive RunOutcome where
  | usage
  | configExit
  | panicked (p : GoPanic)
  | completed (finalSet : Finset String) (fetchCalls : Nat)

/-- `main` (lines 227-257): an empty `-domain` prints usage and returns
(exit status 0, nothing fetched); then `configureHTTPClient` may abort the
process before any fetch; otherwise the four adapters run to completion (or
a panic kills the run) and `printAllSubdomains` reports the key set of
`uniqueSubs`, in unspecified map-iteration order. -/
def mainRun (domain proxy stKey shKey vtKey : String) (o : Oracles) :
    RunOutcome :=
  if domain = "" then .usage
  else
    match configureHTTPClient proxy o.proxyParses o.proxyReachable with
    | .exitFailure => .configExit
    | .ok _ =>
      match runAdapters domain stKey shKey vtKey o with
      | .error p => .panicked p
      | .ok (findings, calls) => .completed (runAgg findings).set calls

/-- The error a failed attempt leaves in the local `err` variable:
the transport error if there was one, `nil` for a non-200 response. -/
def failCarry : Except String Resp → Option String
  | .error e => some e
  | .ok _ => none

/-- Concrete oracle: every attempt yields HTTP 500 with no transport error. -/
def allServerError : Nat → Except String Resp := fun _ => .ok ⟨500, none⟩

/-- Concrete oracle: transport errors on attempts 0 and 1, HTTP 200 on 2. -/
def thirdTimeLucky : Nat → Except String Resp := fun n =>
  if n = 2 then .ok ⟨200, none⟩ else .error "connection refused"

/-- Concrete crt.sh response body for the end-to-end scenario of C3. -/
def crtShBodyC3 : JVal :=
  .arr [ .obj [("name_value", .str "sub1.example.com")],
         .obj [("name_value", .str "sub2.example.com")],
         .obj [("name_value", .str "*.example.com")],
         .obj [("name_value", .str "sub1.example.com")] ]

/-- Oracles for the C3 scenario: crt.sh answers immediately with 200 and the
body above; the credential-gated adapters are disabled (empty keys), so their
oracles are never consulted. -/
def oraclesC3 : Oracles :=
  ⟨true, true, fun _ => .ok ⟨200, some crtShBodyC3⟩,
   fun _ => .error "unused", fun _ => .error "unused", fun _ => .error "unused"⟩

/-- Oracles for the C5 witness: crt.sh yields one finding, the rest unused. -/
def oraclesC5 : Oracles :=
  ⟨true, true,
   fun _ => .ok ⟨200, some (.arr [.obj [("name_value", .str "w.example.com")]])⟩,
   fun _ => .error "unused", fun _ => .error "unused", fun _ => .error "unused"⟩

/-- Oracles for the C6 witness: every source answers 200 with a body that is
either not JSON at all (crt.sh) or a JSON string where an array/object is
expected, so every decode fails. -/
def oraclesC6 : Oracles :=
  ⟨true, true, fun _ => .ok ⟨200, none⟩,
   fun _ => .ok ⟨200, some (.str "oops")⟩,
   fun _ => .ok ⟨200, some (.str "oops")⟩,
   fun _ => .ok ⟨200, some (.str "oops")⟩⟩

/-- Oracles for the C7 witness: the supplied proxy URL does not parse. -/
def oraclesC7 : Oracles :=
  ⟨false, true, fun _ => .error "unused", fun _ => .error "unused",
   fun _ => .error "unused", fun _ => .error "unused"⟩

/-- Oracle for the C8 witness: a SecurityTrails/Shodan-shaped response with
short labels `mail` and `vpn`. -/
def labelsOracleC8 : Nat → Except String Resp := fun _ =>
  .ok ⟨200, some (.obj [("subdomains", .arr [.str "mail", .str "vpn"])])⟩

section Lemmas

/-- One failing attempt: the loop moves on to the next attempt, carrying the
attempt's error (nil for a non-200 response) in `err`. -/
theorem fetchGo_step_fail (doReq : Nat → Except String Resp) (i fuel : Nat)
    (lastErr : Option String) (h : attemptFails (doReq i) = true) :
    fetchGo doReq i (fuel + 1) lastErr
      = fetchGo doReq (i + 1) fuel (failCarry (doReq i)) := by
  cases hd : doReq i with
  | error e => simp [fetchGo, hd, failCarry]
  | ok r =>
    have hs : ¬ r.statusCode = 200 := by
      simpa [attemptFails, hd] using h
    simp [fetchGo, hd, failCarry, hs]

/-- One successful attempt: the loop returns the response immediately. -/
theorem fetchGo_step_ok (doReq : Nat → Except String Resp) (i fuel : Nat)
    (lastErr : Option String) (r : Resp) (h : doReq i = .ok r)
    (hs : r.statusCode = 200) :
    fetchGo doReq i (fuel + 1) lastErr = ((some r, none), i + 1) := by
  simp [fetchGo, h, hs]

/-- The loop makes at most `fuel` further attempts beyond index `i`. -/
theorem fetchGo_attempts_le (doReq : Nat → Except String Resp) :
    ∀ (fuel i : Nat) (lastErr : Option String),
      (fetchGo doReq i fuel lastErr).2 ≤ i + fuel := by
  intro fuel
  induction fuel with
  | zero => intro i lastErr; simp [fetchGo]
  | succ n ih =>
    intro i lastErr
    cases hd : doReq i with
    | error e =>
      have := ih (i + 1) (some e)
      simp only [fetchGo, hd]
      omega
    | ok r =>
      by_cases hs : r.statusCode = 200
      · simp only [fetchGo, hd, hs, if_pos]
        omega
      · have := ih (i + 1) none
        simp only [fetchGo, hd, hs, if_neg, not_false_iff]
        omega

/-- The set after one `addSubdomain`: unchanged for a wildcard, otherwise the
key is (idempotently) inserted. -/
theorem addSubdomain_set (st : AggState) (s : String) :
    (addSubdomain st s).set
      = if containsWildcard s then st.set else insert s st.set := by
  unfold addSubdomain
  by_cases hw : containsWildcard s
  · simp [hw]
  · by_cases hm : s ∈ st.set
    · simp [hw, hm, Finset.insert_eq_self.mpr hm]
    · simp [hw, hm]

/-- The key set after recording a whole list: the starting keys plus every
non-wildcard string in the list. -/
theorem recordAll_set (fs : List String) :
    ∀ st : AggState,
      (recordAll st fs).set
        = st.set ∪ (fs.filter fun s => !containsWildcard s).toFinset := by
  induction fs with
  | nil => intro st; simp [recordAll]
  | cons a fs ih =>
    intro st
    have hstep : recordAll st (a :: fs) = recordAll (addSubdomain st a) fs := rfl
    rw [hstep, ih (addSubdomain st a), addSubdomain_set]
    by_cases hw : containsWildcard a
    · simp [hw]
    · simp [hw, Finset.insert_union]

/-- Membership in the final unique set: exactly the non-wildcard strings that
were recorded. -/
theorem mem_runAgg_set (fs : List String) (s : String) :
    s ∈ (runAgg fs).set ↔ s ∈ fs ∧ containsWildcard s = false := by
  rw [runAgg, recordAll_set fs emptyAgg]
  simp [emptyAgg, List.mem_filter]

end Lemmas

/-- C1: for every serialized multiset of recorded strings (the mutex turns
the concurrent `addSubdomain` calls into some list), the final unique set
contains a string iff it was recorded and is not a wildcard — each distinct
non-wildcard string exactly once (`set` is a `Finset`); a record of an
already-present string leaves the state entirely unchanged; the first record
of a non-wildcard string inserts it. -/
theorem claim_C1_dedup (findings : List String) (s : String) (st : AggState) :
    (s ∈ (runAgg findings).set ↔ s ∈ findings ∧ containsWildcard s = false)
    ∧ (s ∈ st.set → addSubdomain st s = st)
    ∧ (containsWildcard s = false → s ∈ (addSubdomain st s).set) := by
  refine ⟨mem_runAgg_set findings s, ?_, ?_⟩
  · intro hm
    unfold addSubdomain
    by_cases hw : containsWildcard s
    · simp [hw]
    · simp [hw, hm]
  · intro hw
    rw [addSubdomain_set, hw]
    simp

/-- Witness for C1 at a concrete duplicate record. -/
theorem claim_C1_dedup_witness :
    ("a.example.com" ∈ (runAgg ["a.example.com", "a.example.com"]).set)
    ∧ addSubdomain (runAgg ["a.example.com"]) "a.example.com"
        = runAgg ["a.example.com"] := by
  constructor
  · exact (claim_C1_dedup ["a.example.com", "a.example.com"] "a.example.com"
      emptyAgg).1.mpr (by decide)
  · exact (claim_C1_dedup [] "a.example.com" (runAgg ["a.example.com"])).2.1
      (by decide)

/-- C9 counterexample: two runs that record the same strings in opposite
first-seen orders produce identical Unique Subdomain Sets (the state
`printAllSubdomains` reads), while their incremental discovery logs differ —
so insertion order is not recorded in the set and is not available to the
final reporting. -/
theorem claim_C9_counterexample :
    (runAgg ["b.x", "a.x"]).set = (runAgg ["a.x", "b.x"]).set
    ∧ (runAgg ["b.x", "a.x"]).foundLog ≠ (runAgg ["a.x", "b.x"]).foundLog := by
  constructor
  · decide
  · decide

/-- C9 amended: the Unique Subdomain Set is an unordered key set — any two
serializations of the same multiset of recorded strings yield equal sets, so
the final reporting receives the unique subdomains without insertion order. -/
theorem claim_C9_amended (l1 l2 : List String) (h : l1.Perm l2) :
    (runAgg l1).set = (runAgg l2).set := by
  ext x
  simp only [mem_runAgg_set]
  exact and_congr_left fun _ => h.mem_iff

/-- Witness for C9 amended at a concrete permutation. -/
theorem claim_C9_amended_witness :
    (runAgg ["a.x", "b.x"]).set = (runAgg ["b.x", "a.x"]).set :=
  claim_C9_amended ["a.x", "b.x"] ["b.x", "a.x"] (by decide)

/-- C10: the wildcard filter looks only at the first character, so a finding
with a `*` at any later position is not discarded: it is inserted and appears
in the final result wherever it occurs among the recorded findings. -/
theorem claim_C10_inner_wildcard (s : String) (before after : List String)
    (hhead : s.data.head? ≠ some '*') (_hstar : '*' ∈ s.data) :
    containsWildcard s = false
    ∧ s ∈ (runAgg (before ++ s :: after)).set := by
  have hw : containsWildcard s = false := by
    unfold containsWildcard
    cases hd : s.data with
    | nil => rfl
    | cons c rest =>
      have hc : c ≠ '*' := by
        intro hc
        exact hhead (by rw [hd, hc]; rfl)
      simp [hc]
  refine ⟨hw, (mem_runAgg_set _ s).mpr ⟨?_, hw⟩⟩
  simp

/-- Witness for C10 at the spec's example string. -/
theorem claim_C10_inner_wildcard_witness :
    containsWildcard "sub.*.example.com" = false
    ∧ "sub.*.example.com" ∈ (runAgg ["sub.*.example.com"]).set := by
  have h := claim_C10_inner_wildcard "sub.*.example.com" [] []
    (by decide) (by decide)
  simpa using h

/-- C3: a wildcard-marked finding never appears in the final unique set, no
matter how often it is recorded; and the end-to-end scenario — domain
`example.com`, only crt.sh enabled, returning `sub1`, `sub2`, a wildcard and
a duplicate — completes with exactly `{sub1.example.com, sub2.example.com}`
after a single fetch. -/
theorem claim_C3_wildcard_scenario (findings : List String) (s : String)
    (hw : containsWildcard s = true) :
    s ∉ (runAgg findings).set
    ∧ mainRun "example.com" "" "" "" "" oraclesC3
        = .completed {"sub1.example.com", "sub2.example.com"} 1 := by
  constructor
  · intro hmem
    have := ((mem_runAgg_set findings s).mp hmem).2
    rw [hw] at this
    exact Bool.noConfusion this
  · have hset : (runAgg ["sub1.example.com", "sub2.example.com",
        "*.example.com", "sub1.example.com"]).set
        = {"sub1.example.com", "sub2.example.com"} := by decide
    have h2 : mainRun "example.com" "" "" "" "" oraclesC3
        = .completed (runAgg ["sub1.example.com", "sub2.example.com",
            "*.example.com", "sub1.example.com"]).set 1 := rfl
    rw [h2, hset]

/-- Witness for C3 at the wildcard string of the scenario. -/
theorem claim_C3_wildcard_scenario_witness :
    "*.example.com" ∉ (runAgg ["a.example.com", "*.example.com"]).set
    ∧ mainRun "example.com" "" "" "" "" oraclesC3
        = .completed {"sub1.example.com", "sub2.example.com"} 1 :=
  claim_C3_wildcard_scenario ["a.example.com", "*.example.com"]
    "*.example.com" (by decide)

/-- C4: the fetcher makes at most `retryLimit` = 3 attempts in total; an
attempt that returns HTTP 200 with no transport error is returned at once
(after a single attempt if it is the first); and when attempts 0 and 1 fail
(transport error or non-200) and attempt 2 succeeds with 200, the attempt-2
response is returned after exactly 3 attempts. -/
theorem claim_C4_retry (doReq : Nat → Except String Resp) (r : Resp) :
    (fetchWithRetries doReq).2 ≤ retryLimit
    ∧ (doReq 0 = .ok r → r.statusCode = 200 →
        fetchWithRetries doReq = ((some r, none), 1))
    ∧ (attemptFails (doReq 0) = true → attemptFails (doReq 1) = true →
        doReq 2 = .ok r → r.statusCode = 200 →
        fetchWithRetries doReq = ((some r, none), 3)) := by
  refine ⟨?_, ?_, ?_⟩
  · simpa using fetchGo_attempts_le doReq retryLimit 0 none
  · intro h0 hs
    rw [fetchWithRetries]
    exact fetchGo_step_ok doReq 0 2 none r h0 hs
  · intro h0 h1 h2 hs
    rw [fetchWithRetries,
      show retryLimit = 2 + 1 from rfl,
      fetchGo_step_fail doReq 0 2 none h0,
      show (2 : Nat) = 1 + 1 from rfl,
      fetchGo_step_fail doReq 1 1 (failCarry (doReq 0)) h1,
      fetchGo_step_ok doReq 2 0 (failCarry (doReq 1)) r h2 hs]

/-- Witness for C4: transport errors on attempts 0 and 1, success on 2. -/
theorem claim_C4_retry_witness :
    (fetchWithRetries thirdTimeLucky).2 ≤ retryLimit
    ∧ fetchWithRetries thirdTimeLucky
        = ((some ⟨200, none⟩, none), 3) := by
  have h := claim_C4_retry thirdTimeLucky ⟨200, none⟩
  exact ⟨h.1, h.2.2 rfl rfl rfl rfl⟩

/-- C2 (evaluation at the failing input): when every attempt yields a non-200
response with no transport error, `fetchWithRetries` returns `(nil, nil)` —
a nil response together with a nil error, not the non-nil failure the spec
requires — and the caller (here `fetchFromCrtSh`), whose only guard is
`err != nil`, then dereferences the nil response in `defer resp.Body.Close()`
and panics, crashing the run instead of continuing non-fatally. -/
theorem claim_C2_exhaustion_bug :
    fetchWithRetries allServerError = ((none, none), 3)
    ∧ runCrtSh "example.com" allServerError = .error .nilPointerDeref :=
  ⟨rfl, rfl⟩

/-- C5: a credential-gated adapter whose key is empty performs zero fetches,
contributes zero findings, and reaches its completion signal immediately
(each of SecurityTrails, Shodan, VirusTotal); with SecurityTrails disabled,
whenever the other adapters run to completion the whole fan-out completes
with exactly their fetches and findings, and every non-wildcard finding of
the other adapters is in the final unique set. -/
theorem claim_C5_disabled (domain shKey vtKey : String) (o : Oracles) :
    runSecurityTrails "" domain o.securityTrails = .ok ⟨0, []⟩
    ∧ runShodan "" domain o.shodan = .ok ⟨0, []⟩
    ∧ runVirusTotal "" domain o.virusTotal = .ok ⟨0, []⟩
    ∧ ∀ a b c : AdapterOut,
        runCrtSh domain o.crtSh = .ok a →
        runShodan shKey domain o.shodan = .ok b →
        runVirusTotal vtKey domain o.virusTotal = .ok c →
        runAdapters domain "" shKey vtKey o
          = .ok (a.findings ++ b.findings ++ c.findings,
                 a.calls + b.calls + c.calls)
        ∧ ∀ s : String,
            s ∈ a.findings ∨ s ∈ b.findings ∨ s ∈ c.findings →
            containsWildcard s = false →
            s ∈ (runAgg (a.findings ++ b.findings ++ c.findings)).set := by
  refine ⟨rfl, rfl, rfl, ?_⟩
  intro a b c hc hb hcc
  have hst : runSecurityTrails "" domain o.securityTrails = .ok ⟨0, []⟩ := rfl
  constructor
  · simp [runAdapters, hc, hst, hb, hcc]
  · intro s hmem hw
    refine (mem_runAgg_set _ s).mpr ⟨?_, hw⟩
    simp only [List.mem_append]
    tauto

/-- Witness for C5: only crt.sh enabled, yielding one finding. -/
theorem claim_C5_disabled_witness :
    runSecurityTrails "" "example.com" oraclesC5.securityTrails = .ok ⟨0, []⟩
    ∧ runAdapters "example.com" "" "" "" oraclesC5
        = .ok (["w.example.com"] ++ [] ++ [], 1 + 0 + 0)
    ∧ "w.example.com" ∈ (runAgg (["w.example.com"] ++ [] ++ [])).set := by
  have h := claim_C5_disabled "example.com" "" "" oraclesC5
  have h4 := h.2.2.2 ⟨1, ["w.example.com"]⟩ ⟨0, []⟩ ⟨0, []⟩ rfl rfl rfl
  exact ⟨h.1, h4.1, h4.2 "w.example.com" (Or.inl (by simp)) (by decide)⟩

/-- C6: a 200 response whose body is not decodable as the Go type the
adapter expects (invalid JSON, or a JSON document of the wrong shape) yields
zero findings for that source, the adapter still completes normally, and the
whole run completes and produces its (here empty) final listing. -/
theorem claim_C6_bad_json (domain stKey shKey vtKey : String) (o : Oracles)
    (b1 b2 b3 b4 : Option JVal)
    (hd : domain ≠ "") (hst : stKey ≠ "") (hsh : shKey ≠ "") (hvt : vtKey ≠ "")
    (h1 : o.crtSh 0 = .ok ⟨200, b1⟩) (hb1 : decodeBodyArrObj b1 = none)
    (h2 : o.securityTrails 0 = .ok ⟨200, b2⟩) (hb2 : decodeBodyObj b2 = none)
    (h3 : o.shodan 0 = .ok ⟨200, b3⟩) (hb3 : decodeBodyObj b3 = none)
    (h4 : o.virusTotal 0 = .ok ⟨200, b4⟩) (hb4 : decodeBodyObj b4 = none) :
    runCrtSh domain o.crtSh = .ok ⟨1, []⟩
    ∧ runSecurityTrails stKey domain o.securityTrails = .ok ⟨1, []⟩
    ∧ runShodan shKey domain o.shodan = .ok ⟨1, []⟩
    ∧ runVirusTotal vtKey domain o.virusTotal = .ok ⟨1, []⟩
    ∧ mainRun domain "" stKey shKey vtKey o = .completed ∅ 4 := by
  have hf1 : fetchWithRetries o.crtSh = ((some ⟨200, b1⟩, none), 1) :=
    fetchGo_step_ok o.crtSh 0 2 none _ h1 rfl
  have hf2 : fetchWithRetries o.securityTrails = ((some ⟨200, b2⟩, none), 1) :=
    fetchGo_step_ok o.securityTrails 0 2 none _ h2 rfl
  have hf3 : fetchWithRetries o.shodan = ((some ⟨200, b3⟩, none), 1) :=
    fetchGo_step_ok o.shodan 0 2 none _ h3 rfl
  have hf4 : fetchWithRetries o.virusTotal = ((some ⟨200, b4⟩, none), 1) :=
    fetchGo_step_ok o.virusTotal 0 2 none _ h4 rfl
  have hc : runCrtSh domain o.crtSh = .ok ⟨1, []⟩ := by
    simp [runCrtSh, adapterTail, hf1, hb1]
  have hstl : runSecurityTrails stKey domain o.securityTrails = .ok ⟨1, []⟩ := by
    simp [runSecurityTrails, hst, adapterTail, hf2, hb2]
  have hsho : runShodan shKey domain o.shodan = .ok ⟨1, []⟩ := by
    simp [runShodan, hsh, adapterTail, hf3, hb3]
  have hvt2 : runVirusTotal vtKey domain o.virusTotal = .ok ⟨1, []⟩ := by
    simp [runVirusTotal, hvt, adapterTail, hf4, hb4]
  refine ⟨hc, hstl, hsho, hvt2, ?_⟩
  simp [mainRun, hd, configureHTTPClient, runAdapters, hc, hstl, hsho, hvt2,
    runAgg, recordAll, emptyAgg]

/-- Witness for C6: all four sources enabled, each answering 200 with an
undecodable or wrongly-shaped body. -/
theorem claim_C6_bad_json_witness :
    runCrtSh "example.com" oraclesC6.crtSh = .ok ⟨1, []⟩
    ∧ mainRun "example.com" "" "k1" "k2" "k3" oraclesC6 = .completed ∅ 4 := by
  have h := claim_C6_bad_json "example.com" "k1" "k2" "k3" oraclesC6
    none (some (.str "oops")) (some (.str "oops")) (some (.str "oops"))
    (by decide) (by decide) (by decide) (by decide)
    rfl rfl rfl rfl rfl rfl rfl rfl
  exact ⟨h.1, h.2.2.2.2⟩

/-- C7: with a non-empty proxy URL, a parse failure or a failed TCP
reachability probe makes the run exit with status 1 before any fetch (the
`configExit` outcome precedes every adapter launch and no listing is
produced); with an empty proxy URL neither check runs and configuration
always succeeds without a proxy. -/
theorem claim_C7_proxy (domain proxy stKey shKey vtKey : String) (o : Oracles) :
    (domain ≠ "" → proxy ≠ "" →
      o.proxyParses = false ∨ o.proxyReachable = false →
      mainRun domain proxy stKey shKey vtKey o = .configExit)
    ∧ ∀ parses reachable : Bool,
        configureHTTPClient "" parses reachable = .ok false := by
  constructor
  · intro hd hp hbad
    have hcfg : configureHTTPClient proxy o.proxyParses o.proxyReachable
        = .exitFailure := by
      unfold configureHTTPClient
      rw [if_neg hp]
      rcases hbad with h | h
      · simp [h]
      · by_cases h2 : o.proxyParses = false <;> simp [h2, h]
    unfold mainRun
    rw [if_neg hd, hcfg]
  · intro parses reachable
    rfl

/-- Witness for C7: an unparsable proxy URL aborts the run. -/
theorem claim_C7_proxy_witness :
    mainRun "example.com" "http://bad proxy" "" "" "" oraclesC7 = .configExit
    ∧ configureHTTPClient "" false false = .ok false := by
  have h := claim_C7_proxy "example.com" "http://bad proxy" "" "" "" oraclesC7
  exact ⟨h.1 (by decide) (by decide) (Or.inl rfl), h.2 false false⟩

/-- C8: when SecurityTrails or Shodan answers with a `subdomains` array, each
element `sub` is recorded as `fmt.Sprintf("%s.%s", sub, domain)`; for a
string label this is `label.domain`, which is present among the recorded
strings and is never the bare label. -/
theorem claim_C8_concat (apiKey domain : String)
    (doReq : Nat → Except String Resp) (bodyJ : Option JVal)
    (fields : List (String × JVal)) (elems : List JVal)
    (hk : apiKey ≠ "") (h0 : doReq 0 = .ok ⟨200, bodyJ⟩)
    (hobj : decodeBodyObj bodyJ = some fields)
    (hsubs : subdomainsArray fields = some elems) :
    runSecurityTrails apiKey domain doReq
      = .ok ⟨1, elems.map fun sub => goSprintfS sub ++ "." ++ domain⟩
    ∧ runShodan apiKey domain doReq
      = .ok ⟨1, elems.map fun sub => goSprintfS sub ++ "." ++ domain⟩
    ∧ ∀ label : String, JVal.str label ∈ elems →
        (label ++ "." ++ domain)
          ∈ elems.map (fun sub => goSprintfS sub ++ "." ++ domain)
        ∧ label ++ "." ++ domain ≠ label := by
  have hfetch : fetchWithRetries doReq = ((some ⟨200, bodyJ⟩, none), 1) :=
    fetchGo_step_ok doReq 0 2 none _ h0 rfl
  refine ⟨?_, ?_, ?_⟩
  · simp [runSecurityTrails, hk, adapterTail, hfetch, hobj, hsubs]
  · simp [runShodan, hk, adapterTail, hfetch, hobj, hsubs]
  · intro label hmem
    constructor
    · exact List.mem_map.mpr ⟨.str label, hmem, rfl⟩
    · intro heq
      have hlen := congrArg String.length heq
      have hdot : (".").length = 1 := rfl
      simp [String.length_append, hdot] at hlen
      omega

/-- Witness for C8: labels `mail` and `vpn` for `example.com`. -/
theorem claim_C8_concat_witness :
    runSecurityTrails "k" "example.com" labelsOracleC8
      = .ok ⟨1, ["mail.example.com", "vpn.example.com"]⟩
    ∧ ("mail" ++ "." ++ "example.com") ≠ "mail" := by
  have h := claim_C8_concat "k" "example.com" labelsOracleC8
    (some (.obj [("subdomains", .arr [.str "mail", .str "vpn"])]))
    [("subdomains", .arr [.str "mail", .str "vpn"])]
    [.str "mail", .str "vpn"] (by decide) rfl rfl rfl
  refine ⟨?_, (h.2.2 "mail" (by simp)).2⟩
  rw [h.1]
  rfl

end LeviathanMapper
